import Mathlib

/-!
Verification of the SublimeLinter flow plugin (`linter.py`).

The plugin consumes the JSON diagnostic payload of the flow checker and turns
it into editor actions.  The shallow embedding below mirrors the source:

* `RawMessage`, `ErrorGroup`, `Payload` embed the JSON payload shape
  (`path`, `line`, `start`, `endline`, `end`, `descr`; groups under `errors`;
  the boolean `passed`).
* `get_error` (with its loop helpers `scanMsgs` and `get_error_go`) embeds
  `Flow_error.get_error`.  Python's early `return error, idx` inside the
  nested loop is embedded with `Except`: `.error` carries the early return,
  `.ok` the updated `none_entry_error` accumulator.
* `Flow_msg.init` embeds `Flow_msg.__init__`, `Flow_error.init` embeds
  `Flow_error.__init__` together with the module-level `last_instance`
  slot; mutable editor state (the `last_instance` reference and the
  per-view highlight regions) is threaded as an explicit `World`.
  Views are identified by the file path they display, matching
  `window.find_open_file(self.file)`.
* Editor primitives that only supply data (`view.text_point`,
  `view.substr`, `view.full_line`) are oracles passed as functions.
* The readiness barrier of `Flow_error.on_view_ready` (the `rest` counter
  and the `check` closure) is embedded by `check`/`runChecks`: `runChecks n k`
  is the counter state and number of aggregate-callback invocations after
  `k` calls of `check` starting from `rest = n`.
-/

/-- A message object of the payload: `path`, 1-based `line`/`start` and
`endline`/`end`, and the description `descr`.  Coordinates are integers,
as in Python. -/
structure RawMessage where
  path : String
  line : Int
  start : Int
  endline : Int
  «end» : Int
  descr : String
  deriving DecidableEq, Repr

/-- A group object of the payload: its `message` array. -/
structure ErrorGroup where
  message : List RawMessage
  deriving DecidableEq, Repr

/-- The root payload: `passed` flag and the `errors` array. -/
structure Payload where
  passed : Bool
  errors : List ErrorGroup
  deriving DecidableEq, Repr

/-- `none_entry_error` update: Python only assigns
`none_entry_error, index = error, idx` when `none_entry_error` is still
`None` (`if not none_entry_error`). -/
def accOr (acc b : Option (ErrorGroup × Nat)) : Option (ErrorGroup × Nat) :=
  match acc with
  | some x => some x
  | none => b

/-- The inner loop of `Flow_error.get_error`:
`for idx, msg in enumerate(error['message'])`.  A `.error` value is the
early `return error, idx` taken when the group's origin message (index 0)
has the triggering file's path; `.ok` carries the `none_entry_error`
accumulator out of the loop. -/
def scanMsgs (file : String) (g : ErrorGroup) :
    Option (ErrorGroup × Nat) → Nat → List RawMessage →
      Except (ErrorGroup × Nat) (Option (ErrorGroup × Nat))
  | acc, _, [] => .ok acc
  | acc, idx, m :: rest =>
    if file = m.path then
      if idx ≠ 0 then
        scanMsgs file g (accOr acc (some (g, idx))) (idx + 1) rest
      else
        .error (g, idx)
    else
      scanMsgs file g acc (idx + 1) rest

/-- The outer loop of `Flow_error.get_error`: `for error in self.output['errors']`. -/
def get_error_go (file : String) :
    Option (ErrorGroup × Nat) → List ErrorGroup → Option (ErrorGroup × Nat)
  | acc, [] => acc
  | acc, g :: rest =>
    match scanMsgs file g acc 0 g.message with
    | .error r => some r
    | .ok acc2 => get_error_go file acc2 rest

/-- `Flow_error.get_error`.  The Python pair `(None, None)` /
`(error, idx)` is embedded as `Option (ErrorGroup × Nat)` (the two
components are always both set or both unset). -/
def get_error (file : String) (errors : List ErrorGroup) : Option (ErrorGroup × Nat) :=
  get_error_go file none errors

/-- True when the group's origin message (index 0) has the triggering
file's path — the condition under which `get_error` takes the early
"entry error" return on this group. -/
def isEntry (file : String) (g : ErrorGroup) : Bool :=
  match g.message with
  | [] => false
  | m :: _ => decide (file = m.path)

/-- Index of the first message at or after position `idx` whose path is the
triggering file; used to characterise the recorded `none_entry_error`. -/
def firstMatchIdx (file : String) : List RawMessage → Nat → Option Nat
  | [], _ => none
  | m :: rest, idx => if file = m.path then some idx else firstMatchIdx file rest (idx + 1)

/-- The first group of the list containing a message of the triggering
file, paired with the first matching index inside it. -/
def findGroupMatch (file : String) : List ErrorGroup → Option (ErrorGroup × Nat)
  | [] => none
  | g :: rest =>
    accOr ((firstMatchIdx file g.message 0).map (fun k => (g, k))) (findGroupMatch file rest)

/-- The resolved message built by `Flow_msg.__init__`: decremented line,
start column and end line, the end column kept as is, plus path,
description, and (by `get_view`) the view for `file`. -/
structure Flow_msg where
  line : Int
  col : Int
  line_end : Int
  col_end : Int
  file : String
  message : String
  deriving DecidableEq, Repr

/-- `Flow_msg.__init__`: `self.line = msg['line'] - 1`,
`self.col = msg['start'] - 1`, `self.line_end = msg['endline'] - 1`,
`self.col_end = msg['end']`, `self.file = msg['path']`,
`self.message = msg['descr']`. -/
def Flow_msg.init (msg : RawMessage) : Flow_msg :=
  { line := msg.line - 1
    col := msg.start - 1
    line_end := msg.endline - 1
    col_end := msg.«end»
    file := msg.path
    message := msg.descr }

/-- Per-view highlight region state: the list of regions stored under the
flow region key of each view, keyed by the file the view displays.  A
region is the pair of points returned by `view.text_point`. -/
abbrev Regions := String → List (Int × Int)

/-- `clear_view`: `view.erase_regions(FLOW_REGION_KEY)`. -/
def clear_view (regions : Regions) (view : String) : Regions :=
  fun v => if v = view then [] else regions v

/-- The session built by `Flow_error.__init__`: stored payload, triggering
file, resolved messages, and the default-selection index (`self.index`;
`none` embeds both Python `None` and the attribute being left unset on
the `passed` branch — it is never read in that case). -/
structure Flow_error where
  output : Payload
  file : String
  msgs : List Flow_msg
  index : Option Nat
  deriving DecidableEq, Repr

/-- `Flow_msg.clear`: erase the flow regions of this message's view. -/
def Flow_msg.clear (m : Flow_msg) (regions : Regions) : Regions :=
  clear_view regions m.file

/-- `Flow_error.clear`: erase the flow regions of every message's view. -/
def Flow_error.clear (e : Flow_error) (regions : Regions) : Regions :=
  e.msgs.foldl (fun r m => m.clear r) regions

/-- Mutable editor-process state: the module-level
`Flow_error.last_instance` slot and each view's highlight regions. -/
structure World where
  last_instance : Option Flow_error
  regions : Regions

/-- `Flow_error.__init__`: clear the previous instance (if any), install
the new instance as `last_instance`, and resolve the relevant messages —
`get_error` when `passed` is false, no messages otherwise. -/
def Flow_error.init (json_output : Payload) (file : String) (w : World) :
    World × Flow_error :=
  let regions1 : Regions :=
    match w.last_instance with
    | some prev => prev.clear w.regions
    | none => w.regions
  let e : Flow_error :=
    if json_output.passed then
      { output := json_output, file := file, msgs := [], index := none }
    else
      match get_error file json_output.errors with
      | some (error, idx) =>
        { output := json_output, file := file
          msgs := error.message.map Flow_msg.init, index := some idx }
      | none =>
        { output := json_output, file := file, msgs := [], index := none }
  ({ last_instance := some e, regions := regions1 }, e)

/-- One call of the `check` closure of `Flow_error.on_view_ready`:
`rest -= 1; rest or callback()`.  State: (`rest`, number of times the
aggregate callback has been invoked).  `rest` is an integer, and Python's
`rest or callback()` runs the callback exactly when `rest` is `0`. -/
def check (s : Int × Nat) : Int × Nat :=
  (s.1 - 1, if s.1 - 1 = 0 then s.2 + 1 else s.2)

/-- Barrier state after `k` readiness signals, starting from
`rest = len(self.msgs) = n` and zero callback invocations.  Each message's
`on_view_ready` calls `check` exactly once when its view is ready, and
`check` does not depend on which message signalled, so the arrival order
is irrelevant and only the number of signals matters. -/
def runChecks (n : Nat) : Nat → Int × Nat
  | 0 => ((n : Int), 0)
  | k + 1 => check (runChecks n k)

/-- Number of invocations of the callback registered via
`Flow_error.on_view_ready` after `k` of the session's messages have
signalled readiness. -/
def Flow_error.on_view_ready_count (e : Flow_error) (k : Nat) : Nat :=
  (runChecks e.msgs.length k).2

/-- Data-supplying editor primitives used by `Flow_msg`: `view.text_point`
(per view, i.e. per file), the text of `view.full_line` at a point, and
`view.substr` of a region. -/
structure EditorOracle where
  text_point : String → Int → Int → Int
  full_line_str : String → Int → String
  substr : String → Int × Int → String

/-- `Flow_msg.region`: from `text_point(line, col)` to
`text_point(line_end, col_end)`. -/
def Flow_msg.region (tp : String → Int → Int → Int) (m : Flow_msg) : Int × Int :=
  (tp m.file m.line m.col, tp m.file m.line_end m.col_end)

/-- Python's `s[:c]` for an integer `c` (negative `c` counts from the end). -/
def pySliceTo (s : String) (c : Int) : String :=
  if c < 0 then s.take ((s.length : Int) + c).toNat else s.take c.toNat

/-- `Flow_msg.report`: the code-preview row and the description, the
latter prefixed with `↯ ` when the message's file differs from the
triggering file. -/
def Flow_msg.report (o : EditorOracle) (m : Flow_msg) (base_file : String) : List String :=
  let point := o.text_point m.file m.line m.col
  let code :=
    pySliceTo (o.full_line_str m.file point) m.col ++ "➜" ++ o.substr m.file (m.region o.text_point)
  let message := if m.file = base_file then m.message else "↯ " ++ m.message
  [code, message]

/-- The `report` list built in `Flow_error.show_report`: one row per
resolved message. -/
def Flow_error.report (o : EditorOracle) (e : Flow_error) : List (List String) :=
  e.msgs.map (fun m => m.report o e.file)

/-- `Flow_msg.highlight`: append this message's region to its view's
existing flow regions (`get_regions`, `append`, `add_regions`). -/
def Flow_msg.highlight (tp : String → Int → Int → Int) (m : Flow_msg)
    (regions : Regions) : Regions :=
  fun v => if v = m.file then regions m.file ++ [m.region tp] else regions v

/-- `Flow_error.highlight`: render every message's region, in order. -/
def Flow_error.highlight (tp : String → Int → Int → Int) (e : Flow_error)
    (regions : Regions) : Regions :=
  e.msgs.foldl (fun r m => m.highlight tp r) regions

/-- An editor navigation action: `window.open_file(encoded,
sublime.ENCODED_POSITION)` with the given `file:line:col` string (this
opens the file when it is not already open). -/
inductive NavAction where
  | open_file (encoded : String)
  deriving DecidableEq, Repr

/-- The `"{}:{}:{}".format(self.file, self.line, self.col)` string used by
both `Flow_msg.get_view` and `Flow_msg.focus`. -/
def Flow_msg.encodedPosition (m : Flow_msg) : String :=
  m.file ++ ":" ++ toString m.line ++ ":" ++ toString m.col

/-- `Flow_msg.focus`: navigate to the message's encoded position. -/
def Flow_msg.focus (m : Flow_msg) : NavAction :=
  NavAction.open_file m.encodedPosition

/-- Result of `Flow_msg.get_view`: either the already-open view found by
`window.find_open_file`, or a view opened at the encoded position (the
source then restores focus to the previously active view). -/
inductive ViewAcq where
  | found (file : String)
  | opened (encoded : String)
  deriving DecidableEq, Repr

/-- `Flow_msg.get_view`, with the set of files having an open view passed
explicitly (the state `window.find_open_file` consults). -/
def Flow_msg.get_view (open_views : List String) (m : Flow_msg) : ViewAcq :=
  if m.file ∈ open_views then ViewAcq.found m.file else ViewAcq.opened m.encodedPosition

/-- The `on_select` callback of `Flow_error.show_report`:
`if index >= 0: self.msgs[index].focus()`.  A cancelled selection is a
negative index; an out-of-range index cannot be delivered by the quick
panel and is embedded as `none`. -/
def on_select (msgs : List Flow_msg) (index : Int) : Option NavAction :=
  if 0 ≤ index then (msgs.get? index.toNat).map Flow_msg.focus else none

/-- The `default` tuple of `Flow.find_errors`:
`(None, None, None, None, None, '', None)`. -/
def default_match :
    Option Nat × Option Nat × Option Nat × Option Nat × Option Nat × String × Option Nat :=
  (none, none, none, none, none, "", none)

/-- `Flow.find_errors`, with JSON decoding represented by its result: a
`ValueError` from `sublime.decode_value` is `none`, in which case the
function returns `[default]` without touching any state; otherwise a
`Flow_error` is constructed (its `show_report().highlight()` rendering is
deferred behind the readiness barrier) and `default` is yielded. -/
def find_errors (decoded : Option Payload) (file : String) (w : World) :
    World ×
      List (Option Nat × Option Nat × Option Nat × Option Nat × Option Nat × String × Option Nat) :=
  match decoded with
  | none => (w, [default_match])
  | some json_output => ((Flow_error.init json_output file w).1, [default_match])

/-- `Clear.on_modified_async`: `clear_view(view)` on the modified view;
the `last_instance` session object is untouched. -/
def on_modified_async (view : String) (w : World) : World :=
  { w with regions := clear_view w.regions view }

/-! Concrete payloads and sessions used to evaluate the definitions. -/

/-- A message originating in `a.js`. -/
def rawA : RawMessage :=
  { path := "a.js", line := 2, start := 3, endline := 2, «end» := 5, descr := "bad type" }

/-- A message originating in `b.js`. -/
def rawB : RawMessage :=
  { path := "b.js", line := 10, start := 4, endline := 10, «end» := 6, descr := "def here" }

/-- A group whose origin message is in `a.js`. -/
def groupEntry : ErrorGroup := { message := [rawA, rawB] }

/-- A group whose origin is in `b.js` and which mentions `a.js` at index 1. -/
def groupContext : ErrorGroup := { message := [rawB, rawA] }

/-- A group that never mentions `a.js`. -/
def groupOther : ErrorGroup := { message := [rawB] }

/-- A failing payload whose second group is an entry error for `a.js`. -/
def payloadEntry : Payload := { passed := false, errors := [groupOther, groupEntry] }

/-- A failing payload where `a.js` only appears as a context message. -/
def payloadContext : Payload := { passed := false, errors := [groupOther, groupContext] }

/-- A passing payload. -/
def payloadPassed : Payload := { passed := true, errors := [] }

/-- The resolution of `rawA`. -/
def msgA : Flow_msg := Flow_msg.init rawA

/-- The resolution of `rawB`. -/
def msgB : Flow_msg := Flow_msg.init rawB

/-- A session holding two resolved messages. -/
def prevSession : Flow_error :=
  { output := payloadEntry, file := "a.js", msgs := [msgA, msgB], index := some 0 }

/-- A session holding no messages. -/
def emptySession : Flow_error :=
  { output := payloadPassed, file := "a.js", msgs := [], index := none }

/-- A region state in which every view carries one highlight region. -/
def baseRegions : Regions := fun _ => [(0, 1)]

/-- A world in which `prevSession` is the current instance. -/
def baseWorld : World := { last_instance := some prevSession, regions := baseRegions }

/-- An oracle returning fixed data; enough to evaluate reports. -/
def sampleOracle : EditorOracle :=
  { text_point := fun _ _ _ => 0, full_line_str := fun _ _ => "", substr := fun _ _ => "" }

/-! Helper lemmas about the `get_error` scan. -/

lemma accOr_none (acc : Option (ErrorGroup × Nat)) : accOr acc none = acc := by
  cases acc <;> rfl

lemma accOr_absorb (acc y : Option (ErrorGroup × Nat)) (x : ErrorGroup × Nat) :
    accOr (accOr acc (some x)) y = accOr acc (some x) := by
  cases acc <;> rfl

lemma accOr_assoc (a b c : Option (ErrorGroup × Nat)) :
    accOr (accOr a b) c = accOr a (accOr b c) := by
  cases a <;> cases b <;> rfl

lemma scanMsgs_pos (file : String) (g : ErrorGroup) (msgs : List RawMessage) :
    ∀ (idx : Nat) (acc : Option (ErrorGroup × Nat)), 1 ≤ idx →
      scanMsgs file g acc idx msgs =
        .ok (accOr acc ((firstMatchIdx file msgs idx).map (fun k => (g, k)))) := by
  induction msgs with
  | nil =>
    intro idx acc _
    simp [scanMsgs, firstMatchIdx, accOr_none]
  | cons m rest ih =>
    intro idx acc h
    by_cases hm : file = m.path
    · have hidx : idx ≠ 0 := by omega
      rw [scanMsgs, if_pos hm, if_pos hidx, ih (idx + 1) _ (by omega)]
      rw [firstMatchIdx, if_pos hm]
      simp [accOr_absorb]
    · rw [scanMsgs, if_neg hm, ih (idx + 1) acc (by omega)]
      rw [firstMatchIdx, if_neg hm]

lemma scanMsgs_entry (file : String) (g : ErrorGroup) (h : isEntry file g = true)
    (acc : Option (ErrorGroup × Nat)) :
    scanMsgs file g acc 0 g.message = .error (g, 0) := by
  cases hmsg : g.message with
  | nil => rw [isEntry, hmsg] at h; cases h
  | cons m rest =>
    rw [isEntry, hmsg] at h
    have hm : file = m.path := of_decide_eq_true h
    rw [scanMsgs, if_pos hm]
    simp

lemma scanMsgs_no_entry (file : String) (g : ErrorGroup) (h : isEntry file g = false)
    (acc : Option (ErrorGroup × Nat)) :
    scanMsgs file g acc 0 g.message =
      .ok (accOr acc ((firstMatchIdx file g.message 0).map (fun k => (g, k)))) := by
  cases hmsg : g.message with
  | nil => simp [scanMsgs, firstMatchIdx, accOr_none]
  | cons m rest =>
    rw [isEntry, hmsg] at h
    have hm : ¬ file = m.path := of_decide_eq_false h
    rw [scanMsgs, if_neg hm, scanMsgs_pos file g rest 1 acc (by omega)]
    rw [firstMatchIdx, if_neg hm]

lemma get_error_go_entry (file : String) (errors : List ErrorGroup) :
    ∀ (acc : Option (ErrorGroup × Nat)) (g : ErrorGroup),
      errors.find? (isEntry file) = some g →
      get_error_go file acc errors = some (g, 0) := by
  induction errors with
  | nil => intro acc g h; simp [List.find?] at h
  | cons g0 rest ih =>
    intro acc g h
    cases hE : isEntry file g0 with
    | true =>
      rw [List.find?_cons_of_pos _ hE] at h
      cases h
      rw [get_error_go, scanMsgs_entry file g0 hE acc]
    | false =>
      rw [List.find?_cons_of_neg _ (by simp [hE])] at h
      rw [get_error_go, scanMsgs_no_entry file g0 hE acc]
      exact ih _ g h

lemma get_error_go_no_entry (file : String) (errors : List ErrorGroup) :
    ∀ (acc : Option (ErrorGroup × Nat)),
      (∀ g ∈ errors, isEntry file g = false) →
      get_error_go file acc errors = accOr acc (findGroupMatch file errors) := by
  induction errors with
  | nil => intro acc _; rw [get_error_go, findGroupMatch, accOr_none]
  | cons g0 rest ih =>
    intro acc hne
    have hE : isEntry file g0 = false := hne g0 (List.mem_cons_self g0 rest)
    rw [get_error_go, scanMsgs_no_entry file g0 hE acc]
    show get_error_go file
      (accOr acc ((firstMatchIdx file g0.message 0).map (fun k => (g0, k)))) rest = _
    rw [ih _ (fun g hg => hne g (List.mem_cons_of_mem g0 hg))]
    rw [findGroupMatch, ← accOr_assoc]

lemma firstMatchIdx_none (file : String) (msgs : List RawMessage)
    (h : ∀ m ∈ msgs, ¬ file = m.path) :
    ∀ idx, firstMatchIdx file msgs idx = none := by
  induction msgs with
  | nil => intro idx; rfl
  | cons m rest ih =>
    intro idx
    rw [firstMatchIdx, if_neg (h m (List.mem_cons_self m rest))]
    exact ih (fun x hx => h x (List.mem_cons_of_mem m hx)) (idx + 1)

lemma findGroupMatch_none (file : String) (errors : List ErrorGroup)
    (h : ∀ g ∈ errors, ∀ m ∈ g.message, ¬ file = m.path) :
    findGroupMatch file errors = none := by
  induction errors with
  | nil => rfl
  | cons g0 rest ih =>
    rw [findGroupMatch, firstMatchIdx_none file g0.message
      (h g0 (List.mem_cons_self g0 rest)) 0]
    exact ih (fun g hg => h g (List.mem_cons_of_mem g0 hg))

/-! Helper lemmas about region clearing and the readiness barrier. -/

lemma clear_fold_pres (msgs : List Flow_msg) :
    ∀ (r : Regions) (v : String), r v = [] →
      (msgs.foldl (fun r m => m.clear r) r) v = [] := by
  induction msgs with
  | nil => intro r v h; simpa using h
  | cons m rest ih =>
    intro r v h
    apply ih
    by_cases hv : v = m.file
    · simp [Flow_msg.clear, clear_view, hv]
    · simp [Flow_msg.clear, clear_view, hv, h]

lemma clear_fold_mem (msgs : List Flow_msg) :
    ∀ (r : Regions) (m : Flow_msg), m ∈ msgs →
      (msgs.foldl (fun r m => m.clear r) r) m.file = [] := by
  induction msgs with
  | nil => intro r m h; cases h
  | cons m0 rest ih =>
    intro r m h
    rcases List.mem_cons.mp h with h | h
    · subst h
      exact clear_fold_pres rest (m.clear r) m.file (by simp [Flow_msg.clear, clear_view])
    · exact ih (m0.clear r) m h

lemma Flow_error_clear_mem (e : Flow_error) (r : Regions) (m : Flow_msg)
    (hm : m ∈ e.msgs) : e.clear r m.file = [] :=
  clear_fold_mem e.msgs r m hm

lemma runChecks_fst (n : Nat) : ∀ k, (runChecks n k).1 = (n : Int) - k := by
  intro k
  induction k with
  | zero => simp [runChecks]
  | succ k ih =>
    rw [runChecks, check]
    show (runChecks n k).1 - 1 = _
    rw [ih]
    push_cast
    ring

lemma runChecks_snd (n : Nat) :
    ∀ k, (runChecks n k).2 = if n ≤ k ∧ 1 ≤ n then 1 else 0 := by
  intro k
  induction k with
  | zero =>
    rw [runChecks]
    split_ifs with h
    · omega
    · rfl
  | succ k ih =>
    rw [runChecks, check, runChecks_fst, ih]
    have hk : ((k : Int) + 1 = (n : Int)) ∨ ¬ ((k : Int) + 1 = (n : Int)) := em _
    split_ifs <;> omega

/-! Claim theorems. -/

/-- C1: for a payload with `passed = false`, if some group's origin message
(index 0) has the triggering file's path, `get_error` returns the first such
group (the first group on which `find?` succeeds with `isEntry`) with its
full message list and default-selection index 0, regardless of the other
groups' contents, and the session resolves exactly that group's messages. -/
theorem get_error_entry (w : World) (p : Payload) (file : String) (g : ErrorGroup)
    (hp : p.passed = false)
    (hfind : p.errors.find? (isEntry file) = some g) :
    get_error file p.errors = some (g, 0) ∧
    (Flow_error.init p file w).2.msgs = g.message.map Flow_msg.init ∧
    (Flow_error.init p file w).2.index = some 0 := by
  have hge : get_error file p.errors = some (g, 0) :=
    get_error_go_entry file p.errors none g hfind
  refine ⟨hge, ?_, ?_⟩ <;> simp [Flow_error.init, hp, hge]

theorem get_error_entry_witness :
    payloadEntry.errors.find? (isEntry "a.js") = some groupEntry ∧
    (get_error "a.js" payloadEntry.errors = some (groupEntry, 0) ∧
      (Flow_error.init payloadEntry "a.js" baseWorld).2.msgs =
        groupEntry.message.map Flow_msg.init ∧
      (Flow_error.init payloadEntry "a.js" baseWorld).2.index = some 0) :=
  ⟨by decide, get_error_entry baseWorld payloadEntry "a.js" groupEntry rfl (by decide)⟩

/-- C2: for a payload with `passed = false` in which no group's origin
message is the triggering file, the scan's final `none_entry_error` is the
first group containing the triggering file among its messages, paired with
the first matching index: `get_error` returns it and the session takes its
full message list with that index as default selection; if the triggering
file appears in no group at all, the session's message list is empty. -/
theorem get_error_context (w : World) (p : Payload) (file : String)
    (hp : p.passed = false)
    (hne : ∀ g ∈ p.errors, isEntry file g = false) :
    (∀ g k, findGroupMatch file p.errors = some (g, k) →
      get_error file p.errors = some (g, k) ∧
      (Flow_error.init p file w).2.msgs = g.message.map Flow_msg.init ∧
      (Flow_error.init p file w).2.index = some k) ∧
    ((∀ g ∈ p.errors, ∀ m ∈ g.message, ¬ file = m.path) →
      (Flow_error.init p file w).2.msgs = []) := by
  have hgo := get_error_go_no_entry file p.errors none hne
  constructor
  · intro g k hfm
    have hge : get_error file p.errors = some (g, k) := by
      rw [get_error, hgo, hfm]; rfl
    refine ⟨hge, ?_, ?_⟩ <;> simp [Flow_error.init, hp, hge]
  · intro hnone
    have hge : get_error file p.errors = none := by
      rw [get_error, hgo, findGroupMatch_none file p.errors hnone]; rfl
    simp [Flow_error.init, hp, hge]

theorem get_error_context_witness :
    (∀ g ∈ payloadContext.errors, isEntry "a.js" g = false) ∧
    get_error "a.js" payloadContext.errors = some (groupContext, 1) ∧
    (Flow_error.init payloadContext "a.js" baseWorld).2.msgs =
      groupContext.message.map Flow_msg.init ∧
    (Flow_error.init payloadContext "a.js" baseWorld).2.index = some 1 := by
  have h := (get_error_context baseWorld payloadContext "a.js" rfl
    (by decide)).1 groupContext 1 (by decide)
  exact ⟨by decide, h.1, h.2.1, h.2.2⟩

/-- C3 (counterexample): the claim that every 1-based coordinate is
decremented fails on the end column: `Flow_msg.__init__` sets
`self.col_end = msg['end']`, not `msg['end'] - 1`.  For `rawA`, whose
`end` is 5, the resolved end column is 5, not 4. -/
theorem flow_msg_end_not_decremented : ¬ (Flow_msg.init rawA).col_end = rawA.«end» - 1 := by
  decide

/-- C3 (amended): resolution decrements the start line, the start column
and the end line exactly once and keeps the end column as is; the values
depend only on the raw message, so resolving the same raw message again
yields the same fields and no double decrement can occur. -/
theorem flow_msg_conversion (m : RawMessage) :
    (Flow_msg.init m).line = m.line - 1 ∧
    (Flow_msg.init m).col = m.start - 1 ∧
    (Flow_msg.init m).line_end = m.endline - 1 ∧
    (Flow_msg.init m).col_end = m.«end» ∧
    (Flow_msg.init m).file = m.path ∧
    (Flow_msg.init m).message = m.descr :=
  ⟨rfl, rfl, rfl, rfl, rfl, rfl⟩

/-- C4 (counterexample): for a session whose message list is empty the
`rest` counter of `on_view_ready` starts at 0, `check` is never called,
and the aggregate callback is never invoked — not invoked exactly once as
the claim states for every list. -/
theorem on_view_ready_empty_never_fires :
    emptySession.on_view_ready_count 0 = 0 ∧ ¬ emptySession.on_view_ready_count 0 = 1 := by
  decide

/-- C4 (amended): for a session with a nonempty message list, the callback
registered via `on_view_ready` has been invoked exactly once as soon as all
messages have signalled readiness (`msgs.length ≤ k`) and zero times
before; each signal decrements the shared counter identically, so the
order in which messages become ready is irrelevant. -/
theorem on_view_ready_fires_once (e : Flow_error) (k : Nat) (h : 1 ≤ e.msgs.length) :
    e.on_view_ready_count k = if e.msgs.length ≤ k then 1 else 0 := by
  rw [Flow_error.on_view_ready_count, runChecks_snd]
  split_ifs <;> omega

theorem on_view_ready_fires_once_witness :
    1 ≤ prevSession.msgs.length ∧
    prevSession.on_view_ready_count 1 = 0 ∧ prevSession.on_view_ready_count 2 = 1 := by
  refine ⟨by decide, ?_, ?_⟩
  · rw [on_view_ready_fires_once prevSession 1 (by decide)]; decide
  · rw [on_view_ready_fires_once prevSession 2 (by decide)]; decide

/-- C5: constructing a new `Flow_error` erases the flow regions on every
view of the previous instance's messages and installs the new instance as
the process-wide `last_instance` (of which there is at most one by type:
the slot holds a single optional session). -/
theorem session_replacement (w : World) (prev : Flow_error) (p : Payload) (file : String)
    (h : w.last_instance = some prev) :
    (Flow_error.init p file w).1.last_instance = some (Flow_error.init p file w).2 ∧
    ∀ m ∈ prev.msgs, (Flow_error.init p file w).1.regions m.file = [] := by
  constructor
  · rfl
  · intro m hm
    simp only [Flow_error.init, h]
    exact Flow_error_clear_mem prev w.regions m hm

theorem session_replacement_witness :
    baseWorld.last_instance = some prevSession ∧
    (Flow_error.init payloadEntry "a.js" baseWorld).1.last_instance =
      some (Flow_error.init payloadEntry "a.js" baseWorld).2 ∧
    (Flow_error.init payloadEntry "a.js" baseWorld).1.regions msgB.file = [] := by
  have h := session_replacement baseWorld prevSession payloadEntry "a.js" rfl
  exact ⟨rfl, h.1, h.2 msgB (by decide)⟩

/-- C6: for a payload with `passed = true` the session's message list is
empty, so the report has no rows and highlighting adds no regions, and the
previous session's highlights are cleared by the construction. -/
theorem passed_payload_empty (w : World) (p : Payload) (file : String)
    (o : EditorOracle) (tp : String → Int → Int → Int) (hp : p.passed = true) :
    (Flow_error.init p file w).2.msgs = [] ∧
    Flow_error.report o (Flow_error.init p file w).2 = [] ∧
    (∀ regions, Flow_error.highlight tp (Flow_error.init p file w).2 regions = regions) ∧
    (∀ prev, w.last_instance = some prev →
      ∀ m ∈ prev.msgs, (Flow_error.init p file w).1.regions m.file = []) := by
  refine ⟨?_, ?_, ?_, ?_⟩
  · simp [Flow_error.init, hp]
  · simp [Flow_error.init, Flow_error.report, hp]
  · intro regions; simp [Flow_error.init, Flow_error.highlight, hp]
  · intro prev hprev m hm
    simp only [Flow_error.init, hprev]
    exact Flow_error_clear_mem prev w.regions m hm

theorem passed_payload_empty_witness :
    payloadPassed.passed = true ∧
    (Flow_error.init payloadPassed "a.js" baseWorld).2.msgs = [] ∧
    Flow_error.report sampleOracle (Flow_error.init payloadPassed "a.js" baseWorld).2 = [] ∧
    (Flow_error.init payloadPassed "a.js" baseWorld).1.regions msgA.file = [] := by
  have h := passed_payload_empty baseWorld payloadPassed "a.js" sampleOracle
    (fun _ _ _ => 0) rfl
  exact ⟨rfl, h.1, h.2.1, h.2.2.2 prevSession rfl msgA (by decide)⟩

/-- C7: when `sublime.decode_value` raises (the decoded payload is absent),
`find_errors` yields only the empty default match and leaves the editor
state untouched: no session is constructed, no report row and no highlight
region is produced.  Being a total function of the embedding, it cannot
crash. -/
theorem find_errors_malformed (w : World) (file : String) :
    find_errors none file w = (w, [default_match]) ∧
    (find_errors none file w).1.last_instance = w.last_instance ∧
    (find_errors none file w).1.regions = w.regions :=
  ⟨rfl, rfl, rfl⟩

/-- C8: the quick-panel `on_select` callback does nothing on a negative
(cancelled) index, and on a valid index `i ≥ 0` navigates to the `i`-th
resolved message's file, line and column via an encoded-position
`open_file` (which opens the file when needed). -/
theorem report_selection (msgs : List Flow_msg) (i : Int) :
    (i < 0 → on_select msgs i = none) ∧
    (∀ m : Flow_msg, 0 ≤ i → msgs.get? i.toNat = some m →
      on_select msgs i =
        some (NavAction.open_file (m.file ++ ":" ++ toString m.line ++ ":" ++ toString m.col))) := by
  constructor
  · intro h
    rw [on_select, if_neg (by omega)]
  · intro m h0 hm
    rw [on_select, if_pos h0, hm]
    rfl

theorem report_selection_witness :
    on_select [msgA, msgB] (-1) = none ∧
    ([msgA, msgB] : List Flow_msg).get? (Int.toNat 1) = some msgB ∧
    on_select [msgA, msgB] 1 =
      some (NavAction.open_file (msgB.file ++ ":" ++ toString msgB.line ++ ":" ++ toString msgB.col)) := by
  refine ⟨(report_selection [msgA, msgB] (-1)).1 (by decide), rfl, ?_⟩
  exact (report_selection [msgA, msgB] 1).2 msgB (by decide) rfl

/-- C9: a buffer-modified signal erases exactly the signalled view's flow
regions; the current session object (`last_instance`, hence its stored
message list and default index) and every other view's regions are
unchanged. -/
theorem modified_clears_only_view (w : World) (view : String) :
    (on_modified_async view w).last_instance = w.last_instance ∧
    (on_modified_async view w).regions view = [] ∧
    ∀ v, ¬ v = view → (on_modified_async view w).regions v = w.regions v := by
  refine ⟨rfl, ?_, ?_⟩
  · simp [on_modified_async, clear_view]
  · intro v hv
    simp [on_modified_async, clear_view, hv]

theorem modified_clears_only_view_witness :
    (on_modified_async "a.js" baseWorld).last_instance = baseWorld.last_instance ∧
    (on_modified_async "a.js" baseWorld).regions "a.js" = [] ∧
    (on_modified_async "a.js" baseWorld).regions "b.js" = baseWorld.regions "b.js" := by
  have h := modified_clears_only_view baseWorld "a.js"
  exact ⟨h.1, h.2.1, h.2.2 "b.js" (by decide)⟩

/-- C10: for a message whose file has no open view, `get_view` opens the
file at the encoded string `file:line:col` built from the already
converted zero-based coordinates — each one less than the raw 1-based
coordinate — and `focus` navigates with the very same encoded string. -/
theorem get_view_opens_encoded (open_views : List String) (r : RawMessage)
    (h : r.path ∉ open_views) :
    Flow_msg.get_view open_views (Flow_msg.init r) =
      ViewAcq.opened (r.path ++ ":" ++ toString (r.line - 1) ++ ":" ++ toString (r.start - 1)) ∧
    (Flow_msg.init r).focus =
      NavAction.open_file (r.path ++ ":" ++ toString (r.line - 1) ++ ":" ++ toString (r.start - 1)) ∧
    r.line - 1 < r.line ∧ r.start - 1 < r.start := by
  refine ⟨?_, rfl, by omega, by omega⟩
  rw [Flow_msg.get_view, if_neg ?_]
  · rfl
  · exact h

theorem get_view_opens_encoded_witness :
    rawA.path ∉ (["b.js"] : List String) ∧
    Flow_msg.get_view ["b.js"] (Flow_msg.init rawA) = ViewAcq.opened "a.js:1:2" ∧
    (Flow_msg.init rawA).focus = NavAction.open_file "a.js:1:2" := by
  have h := get_view_opens_encoded ["b.js"] rawA (by decide)
  refine ⟨by decide, ?_, ?_⟩
  · rw [h.1]; rfl
  · rw [h.2.1]; rfl
